import Mathlib

/-!
Shallow embedding of `src/dual.py`, a dual-number arithmetic module for
forward-mode automatic differentiation.  Python floats are modelled as real
numbers; Python exceptions are modelled by an explicit error type and
`Except`-valued operations.  Each definition mirrors one function or method
of the source file.
-/

namespace DualPy

noncomputable section

/-- The class `dual`: a pair of floats, `x` the real part and `y` the
indeterminate (derivative) part. -/
structure dual where
  x : ℝ
  y : ℝ

/-- Module constant `precision = 1e-8`, the absolute tolerance used by the
equality comparison. -/
def precision : ℝ := 1 / 10 ^ 8

/-- The exception kinds the module can surface: its own `DualException`
(raised with various messages), and the host exceptions `ValueError`
("math domain error", raised by `math.log` on a non-positive argument),
`NameError` (an undefined name is read), `KeyError` (a format field is
missing) and `TypeError` (`None` is subscripted). -/
inductive PyError where
  | dualException
  | mathDomainError
  | nameError
  | keyError
  | typeError

deriving instance DecidableEq for PyError

/-- A Python value of one of the four types the module coerces to `dual`
at operation boundaries: `int`, `float`, `dual`, or a string in the
canonical format (represented here by the two numbers it parses to). -/
inductive PyVal where
  | int (n : ℤ)
  | float (r : ℝ)
  | str (sx sy : ℝ)
  | dualVal (d : dual)

/-- The coercion `dual(v)` applied to a value of one of the four coercible
types: copy a `dual`, take the two parsed components of a canonical string,
or pair a scalar with `y = 0`. -/
def toDual : PyVal → dual
  | .int n => ⟨(n : ℝ), 0⟩
  | .float r => ⟨r, 0⟩
  | .str sx sy => ⟨sx, sy⟩
  | .dualVal d => d

/-- `math.log`, which raises `ValueError` ("math domain error") on a
non-positive argument. -/
def mlog (a : ℝ) : Except PyError ℝ :=
  if 0 < a then .ok (Real.log a) else .error .mathDomainError

/-- `dual.__neg__`. -/
def dual.neg (a : dual) : dual := ⟨-a.x, -a.y⟩

/-- `dual.__add__`: coerce the right operand, add componentwise. -/
def dual.add (a : dual) (o : PyVal) : dual :=
  let b := toDual o
  ⟨a.x + b.x, a.y + b.y⟩

/-- `dual.__sub__`: coerce the right operand, subtract componentwise. -/
def dual.sub (a : dual) (o : PyVal) : dual :=
  let b := toDual o
  ⟨a.x - b.x, a.y - b.y⟩

/-- `dual.__mul__`: coerce the right operand, product rule. -/
def dual.mul (a : dual) (o : PyVal) : dual :=
  let b := toDual o
  ⟨a.x * b.x, a.x * b.y + a.y * b.x⟩

/-- `dual.__truediv__`: coerce the right operand, quotient rule. -/
def dual.truediv (a : dual) (o : PyVal) : dual :=
  let b := toDual o
  ⟨a.x / b.x, (a.y * b.x - a.x * b.y) / (b.x * b.x)⟩

/-- `dual.__pow__`: raises `DualException` ("n must be an integer") when the
exponent is not an `int`; for an `int` exponent `n`, returns
`(x ** n, n * x ** (n - 1) * y)` when `n > 1`, `(x, y)` when `n == 1`,
`dual(1.0)` when `n == 0`, and raises `DualException`
("n must be non-negative") when `n < 0`. -/
def dual.pow_op (a : dual) (n : PyVal) : Except PyError dual :=
  match n with
  | .int k =>
    if 1 < k then .ok ⟨a.x ^ k.toNat, (k : ℝ) * a.x ^ (k.toNat - 1) * a.y⟩
    else if k = 1 then .ok ⟨a.x, a.y⟩
    else if k = 0 then .ok ⟨1, 0⟩
    else .error .dualException
  | _ => .error .dualException

/-- The named method `dual.pow`: computes `c = dual(n).re()`; when `c > 0`
an `int` exponent uses the monomial rule while a `float`, `dual` or `str`
exponent `n` with indeterminate part `d = dual(n).im()` uses
`ex = exp(c * log(x))` and returns `(ex, ex * (c * y / x + d * log(x)))`
(so `math.log` raises when `x <= 0`); when `c == 0` it returns `dual(1)`;
when `c < 0` it raises `DualException` ("n must be non-negative"). -/
def dual.pow (a : dual) (n : PyVal) : Except PyError dual :=
  let c := (toDual n).x
  if 0 < c then
    match n with
    | .int k => .ok ⟨a.x ^ k.toNat, (k : ℝ) * a.x ^ (k.toNat - 1) * a.y⟩
    | _ =>
      let d := (toDual n).y
      (mlog a.x).bind fun la =>
        let ex := Real.exp (c * la)
        .ok ⟨ex, ex * (c * a.y / a.x + d * la)⟩
  else if c = 0 then .ok ⟨1, 0⟩
  else .error .dualException

/-- `dual.__eq__`: coerces an `int`, `float` or `str` right operand, then
compares both components against the module tolerance `precision`. -/
def dual.eq (a : dual) (o : PyVal) : Prop :=
  let b := toDual o
  |a.x - b.x| ≤ precision ∧ |a.y - b.y| ≤ precision

/-- `dual.__ne__` as written in the source: its parameter is named
`otherother` while its body reads the name `other`, which is bound nowhere,
so every call raises `NameError` before any comparison is made. -/
def dual.ne (_a : dual) (_o : PyVal) : Except PyError Bool :=
  .error .nameError

/-- `dual.__lt__`: coerce the right operand, compare real parts only. -/
def dual.lt (a : dual) (o : PyVal) : Prop := a.x < (toDual o).x

/-- `dual.__le__`: coerce the right operand, compare real parts only. -/
def dual.le (a : dual) (o : PyVal) : Prop := a.x ≤ (toDual o).x

/-- `dual.__gt__`: coerce the right operand, compare real parts only. -/
def dual.gt (a : dual) (o : PyVal) : Prop := a.x > (toDual o).x

/-- `dual.__ge__`: coerce the right operand, compare real parts only. -/
def dual.ge (a : dual) (o : PyVal) : Prop := a.x ≥ (toDual o).x

/-- `dual.__iadd__`: coerce the right operand, then `self.x += other.x`,
`self.y += other.y`, and return `self`. -/
def dual.iadd (a : dual) (o : PyVal) : dual :=
  let b := toDual o
  ⟨a.x + b.x, a.y + b.y⟩

/-- `dual.__isub__`: coerce the right operand, then `self.x -= other.x`,
`self.y -= other.y`, and return `self`. -/
def dual.isub (a : dual) (o : PyVal) : dual :=
  let b := toDual o
  ⟨a.x - b.x, a.y - b.y⟩

/-- `dual.__imul__`: coerce the right operand, then update `self.y` in two
steps (`self.y *= other.x`; `self.y += self.x * other.y`, while `self.x`
still holds its old value) before `self.x *= other.x`, and return `self`. -/
def dual.imul (a : dual) (o : PyVal) : dual :=
  let b := toDual o
  let y1 := a.y * b.x
  let y2 := y1 + a.x * b.y
  let x1 := a.x * b.x
  ⟨x1, y2⟩

/-- `dual.__itruediv__`: coerce the right operand, then update `self.y` in
three steps (`*= other.x`; `-= self.x * other.y`; `/= other.x * other.x`,
all while `self.x` still holds its old value) before `self.x /= other.x`,
and return `self`. -/
def dual.itruediv (a : dual) (o : PyVal) : dual :=
  let b := toDual o
  let y1 := a.y * b.x
  let y2 := y1 - a.x * b.y
  let y3 := y2 / (b.x * b.x)
  let x1 := a.x / b.x
  ⟨x1, y3⟩

/-- `dual.__ipow__`: coerces the operand to a `dual` when it is not one,
then calls `self.pow` on the coerced value (so the exponent always reaches
`pow` with type `dual`, never `int`), copies the result's components into
`self`, and returns `self`. -/
def dual.ipow (a : dual) (o : PyVal) : Except PyError dual :=
  dual.pow a (.dualVal (toDual o))

/-- `dual.__str__` as written in the source: the module constant
`strformat` is built by an f-string that escapes its braces, so it is the
literal text `[brace]self.x[brace][brace]self.y:+[brace]w` whose
replacement fields are named `self`; `str.format` is then called with two
positional arguments and no keyword named `self`, so every call raises
`KeyError`. -/
def dual.str (_a : dual) : Except PyError String :=
  .error .keyError

/-- An argument passed to the constructor `dual.__init__`: one of the four
supported types (a string being either canonical, parsing to two numbers,
or rejected by `parse`, which then returns `None`), or an unsupported value
such as a list or `None`. -/
inductive InitArg where
  | int (n : ℤ)
  | float (r : ℝ)
  | strOk (sx sy : ℝ)
  | strBad
  | dualVal (d : dual)
  | listVal
  | noneVal

/-- Whether an argument is a plain `int` or `float` (the check
`type(y) in [int, float]`). -/
def InitArg.isNum : InitArg → Bool
  | .int _ => true
  | .float _ => true
  | _ => false

/-- The numeric value of an `int` or `float` argument. -/
def InitArg.numVal : InitArg → ℝ
  | .int n => (n : ℝ)
  | .float r => r
  | _ => 0

/-- The result of running `dual.__init__`: both fields assigned, an
exception escaping the constructor, or the constructor returning without
ever assigning `self.x` and `self.y`. -/
inductive InitResult where
  | ok (d : dual)
  | error (e : PyError)
  | silent

/-- `dual.__init__(x, y)`: a canonical string sets both components from the
parse result (`y` is ignored); a malformed string makes `parse` return
`None` and the subscript `r[0]` raises `TypeError`; a `dual` is copied
(`y` is ignored); an `int` or `float` `x` with an `int` or `float` `y`
stores both; any other shape matches no branch and the constructor returns
with neither field assigned. -/
def dual.init (x : InitArg) (y : InitArg) : InitResult :=
  match x with
  | .strOk sx sy => .ok ⟨sx, sy⟩
  | .strBad => .error .typeError
  | .dualVal d => .ok d
  | .int n => if InitArg.isNum y then .ok ⟨(n : ℝ), InitArg.numVal y⟩ else .silent
  | .float r => if InitArg.isNum y then .ok ⟨r, InitArg.numVal y⟩ else .silent
  | .listVal => .silent
  | .noneVal => .silent

end

/-- Shifting one argument by `c` changes the absolute difference to `|c|`. -/
lemma abs_sub_self_add (t c : ℝ) : |t - (t + c)| = |c| := by
  rw [show t - (t + c) = -c from by ring, abs_neg]

/-- Exactly equal components are equal within the tolerance. -/
lemma dual.eq_of_exact {a : dual} {o : PyVal} (hx : a.x = (toDual o).x)
    (hy : a.y = (toDual o).y) : dual.eq a o := by
  simp only [dual.eq, hx, hy, sub_self, abs_zero]
  constructor <;> · rw [precision]; norm_num

/-- C2: `a == b` holds exactly when both components agree within the
absolute tolerance `1e-8`; values differing by `5e-9` in each component
compare equal while values differing by `5e-7` compare unequal; and a
scalar or string right operand is coerced to a `dual` before comparing. -/
theorem C2_eq_tolerance (x1 y1 : ℝ) :
    (∀ x2 y2 : ℝ, dual.eq ⟨x1, y1⟩ (.dualVal ⟨x2, y2⟩) ↔
      |x1 - x2| ≤ 1 / 10 ^ 8 ∧ |y1 - y2| ≤ 1 / 10 ^ 8)
    ∧ dual.eq ⟨x1, y1⟩ (.dualVal ⟨x1 + 5 / 10 ^ 9, y1 + 5 / 10 ^ 9⟩)
    ∧ ¬ dual.eq ⟨x1, y1⟩ (.dualVal ⟨x1 + 5 / 10 ^ 7, y1 + 5 / 10 ^ 7⟩)
    ∧ (∀ r : ℝ, dual.eq ⟨x1, y1⟩ (.float r) ↔ dual.eq ⟨x1, y1⟩ (.dualVal ⟨r, 0⟩))
    ∧ (∀ n : ℤ, dual.eq ⟨x1, y1⟩ (.int n) ↔ dual.eq ⟨x1, y1⟩ (.dualVal ⟨(n : ℝ), 0⟩))
    ∧ (∀ sx sy : ℝ, dual.eq ⟨x1, y1⟩ (.str sx sy) ↔
        dual.eq ⟨x1, y1⟩ (.dualVal ⟨sx, sy⟩)) := by
  refine ⟨fun x2 y2 => Iff.rfl, ?_, ?_, fun r => Iff.rfl, fun n => Iff.rfl,
    fun sx sy => Iff.rfl⟩
  · simp only [dual.eq, toDual, abs_sub_self_add, precision]
    constructor <;> · rw [abs_of_pos] <;> norm_num
  · simp only [dual.eq, toDual, abs_sub_self_add, precision]
    intro h
    have h1 := h.1
    rw [abs_of_pos] at h1 <;> norm_num at h1 ⊢

/-- C6: as written, `__ne__` never returns a boolean: its parameter is
named `otherother` while its body reads the unbound name `other`, so every
call — in particular `dual(1,2) != dual(3,4)` — raises `NameError` instead
of computing the negation of the tolerance-based equality. -/
theorem C6_ne_always_raises :
    dual.ne ⟨1, 2⟩ (.dualVal ⟨3, 4⟩) = .error .nameError
    ∧ ∀ (a : dual) (o : PyVal), dual.ne a o = .error .nameError :=
  ⟨rfl, fun _ _ => rfl⟩

/-- C7: each ordering operation compares only the real components and is
insensitive to the indeterminate components; in particular
`(1,100) < (2,-100)` holds. -/
theorem C7_ordering_real_component_only (x1 y1 x2 y2 y1' y2' : ℝ) :
    (dual.lt ⟨x1, y1⟩ (.dualVal ⟨x2, y2⟩) ↔ x1 < x2)
    ∧ (dual.le ⟨x1, y1⟩ (.dualVal ⟨x2, y2⟩) ↔ x1 ≤ x2)
    ∧ (dual.gt ⟨x1, y1⟩ (.dualVal ⟨x2, y2⟩) ↔ x1 > x2)
    ∧ (dual.ge ⟨x1, y1⟩ (.dualVal ⟨x2, y2⟩) ↔ x1 ≥ x2)
    ∧ (dual.lt ⟨x1, y1⟩ (.dualVal ⟨x2, y2⟩) ↔ dual.lt ⟨x1, y1'⟩ (.dualVal ⟨x2, y2'⟩))
    ∧ (dual.le ⟨x1, y1⟩ (.dualVal ⟨x2, y2⟩) ↔ dual.le ⟨x1, y1'⟩ (.dualVal ⟨x2, y2'⟩))
    ∧ (dual.gt ⟨x1, y1⟩ (.dualVal ⟨x2, y2⟩) ↔ dual.gt ⟨x1, y1'⟩ (.dualVal ⟨x2, y2'⟩))
    ∧ (dual.ge ⟨x1, y1⟩ (.dualVal ⟨x2, y2⟩) ↔ dual.ge ⟨x1, y1'⟩ (.dualVal ⟨x2, y2'⟩))
    ∧ dual.lt ⟨1, 100⟩ (.dualVal ⟨2, -100⟩) := by
  refine ⟨Iff.rfl, Iff.rfl, Iff.rfl, Iff.rfl, Iff.rfl, Iff.rfl, Iff.rfl, Iff.rfl, ?_⟩
  show (1 : ℝ) < 2
  norm_num

/-- C9: as written, the string conversion never returns the canonical form:
the module constant `strformat` has replacement fields named `self` (its
f-string escapes the braces) while `format` is called with positional
arguments, so every call — in particular `str(dual(1,2))` — raises
`KeyError` instead of returning a string. -/
theorem C9_str_always_raises :
    dual.str ⟨1, 2⟩ = .error .keyError ∧ ∀ a : dual, dual.str a = .error .keyError :=
  ⟨rfl, fun _ => rfl⟩

/-- C5: the constructor never raises the module's `DualException`; on an
unsupported input shape — a list, `None`, or a non-numeric `y` argument —
it instead returns silently without assigning either component. -/
theorem C5_init_silently_incomplete :
    dual.init .listVal (.float 0) = .silent
    ∧ dual.init .noneVal (.float 0) = .silent
    ∧ dual.init (.int 1) .strBad = .silent
    ∧ dual.init (.int 1) .noneVal = .silent
    ∧ ∀ (x y : InitArg), dual.init x y ≠ .error .dualException := by
  refine ⟨rfl, rfl, rfl, rfl, fun x y => ?_⟩
  cases x <;> simp only [dual.init] <;> try simp
  all_goals
    cases h : InitArg.isNum y <;> simp [h]

/-- C8: subtraction is antisymmetric under negation, `a - b == -(b - a)`;
and when `b`'s real part is nonzero, dividing and multiplying back recovers
the original value within the equality tolerance. -/
theorem C8_sub_div_inverse_laws (a b : dual) :
    dual.eq (dual.sub a (.dualVal b)) (.dualVal (dual.neg (dual.sub b (.dualVal a))))
    ∧ (b.x ≠ 0 →
        dual.eq (dual.mul (dual.truediv a (.dualVal b)) (.dualVal b)) (.dualVal a)) := by
  constructor
  · apply dual.eq_of_exact <;> simp only [dual.sub, dual.neg, toDual] <;> ring
  · intro hb
    apply dual.eq_of_exact <;> simp only [dual.mul, dual.truediv, toDual]
    · field_simp
    · field_simp
      ring

/-- When the base's real part is positive, raising it to an exponent
already coerced to a `dual` with integer real part `k > 0` agrees with
`pow` at the plain `int` exponent. -/
lemma pow_dual_coerce_int (a : dual) (k : ℤ) (hx : 0 < a.x) (hk : 0 < k) :
    dual.pow a (.dualVal ⟨(k : ℝ), 0⟩) = dual.pow a (.int k) := by
  have hkr : (0 : ℝ) < (k : ℝ) := by exact_mod_cast hk
  have hx0 : a.x ≠ 0 := ne_of_gt hx
  have hml : mlog a.x = .ok (Real.log a.x) := by rw [mlog, if_pos hx]
  have hn1 : 1 ≤ k.toNat := by omega
  have hcast : ((k : ℝ)) = ((k.toNat : ℕ) : ℝ) := by
    exact_mod_cast (congrArg (Int.cast : ℤ → ℝ) (Int.toNat_of_nonneg hk.le)).symm
  have hexp : Real.exp ((k : ℝ) * Real.log a.x) = a.x ^ k.toNat := by
    rw [hcast, Real.exp_nat_mul, Real.exp_log hx]
  have hpow : a.x ^ k.toNat = a.x ^ (k.toNat - 1) * a.x := by
    conv_lhs => rw [show k.toNat = (k.toNat - 1) + 1 from by omega]
    rw [pow_succ]
  simp only [dual.pow, toDual]
  rw [if_pos hkr, if_pos hkr, hml]
  simp only [Except.bind, Except.ok.injEq, dual.mk.injEq]
  refine ⟨hexp, ?_⟩
  rw [hexp, hpow]
  field_simp
  ring

/-- C3: the integer power operator uses the monomial rule for `n > 1`,
copies for `n == 1`, gives `(1,0)` for `n == 0`, and raises the module's
`DualException` exactly when `n` is negative or not an `int`; for
`0 ≤ n ≤ 4`, `a**n` is the product of `n` copies of `a` and agrees with
`a.pow(n)`. -/
theorem C3_pow_op (a : dual) (k : ℤ) (o : PyVal) :
    (1 < k → dual.pow_op a (.int k) =
      .ok ⟨a.x ^ k.toNat, (k : ℝ) * a.x ^ (k.toNat - 1) * a.y⟩)
    ∧ dual.pow_op a (.int 1) = .ok ⟨a.x, a.y⟩
    ∧ dual.pow_op a (.int 0) = .ok ⟨1, 0⟩
    ∧ (dual.pow_op a o = .error .dualException ↔
        (∀ m : ℤ, o ≠ .int m) ∨ ∃ m : ℤ, o = .int m ∧ m < 0)
    ∧ dual.pow_op a (.int 2) = .ok (dual.mul a (.dualVal a))
    ∧ dual.pow_op a (.int 3) = .ok (dual.mul (dual.mul a (.dualVal a)) (.dualVal a))
    ∧ dual.pow_op a (.int 4) =
        .ok (dual.mul (dual.mul (dual.mul a (.dualVal a)) (.dualVal a)) (.dualVal a))
    ∧ (∀ m : ℤ, 0 ≤ m → m ≤ 4 → dual.pow a (.int m) = dual.pow_op a (.int m)) := by
  refine ⟨fun h => ?_, by norm_num [dual.pow_op], by norm_num [dual.pow_op], ?_, ?_, ?_, ?_,
    fun m hm0 hm4 => ?_⟩
  · simp only [dual.pow_op]
    rw [if_pos h]
  · rcases o with k' | r | ⟨sx, sy⟩ | d
    · simp only [dual.pow_op]
      split_ifs with h1 h2 h3
      · refine ⟨fun hco => hco.elim, ?_⟩
        rintro (hall | ⟨m, hm, hmlt⟩)
        · exact absurd rfl (hall k')
        · injection hm with hm'
          omega
      · refine ⟨fun hco => hco.elim, ?_⟩
        rintro (hall | ⟨m, hm, hmlt⟩)
        · exact absurd rfl (hall k')
        · injection hm with hm'
          omega
      · refine ⟨fun hco => hco.elim, ?_⟩
        rintro (hall | ⟨m, hm, hmlt⟩)
        · exact absurd rfl (hall k')
        · injection hm with hm'
          omega
      · exact ⟨fun _ => Or.inr ⟨k', rfl, by omega⟩, fun _ => rfl⟩
    all_goals simp [dual.pow_op]
  · norm_num [dual.pow_op, dual.mul, toDual, show ((2 : ℤ)).toNat = 2 from rfl]
    exact ⟨by ring, by ring⟩
  · norm_num [dual.pow_op, dual.mul, toDual, show ((3 : ℤ)).toNat = 3 from rfl]
    exact ⟨by ring, by ring⟩
  · norm_num [dual.pow_op, dual.mul, toDual, show ((4 : ℤ)).toNat = 4 from rfl]
    exact ⟨by ring, by ring⟩
  · interval_cases m
    · norm_num [dual.pow, dual.pow_op, toDual]
    · norm_num [dual.pow, dual.pow_op, toDual]
    · norm_num [dual.pow, dual.pow_op, toDual]
    · norm_num [dual.pow, dual.pow_op, toDual]
    · norm_num [dual.pow, dual.pow_op, toDual]

/-- Witness for C3 at `a = (2,3)`, `n = 2`. -/
theorem C3_pow_op_witness : dual.pow_op ⟨2, 3⟩ (.int 2) = .ok ⟨4, 12⟩ := by
  have h := (C3_pow_op ⟨2, 3⟩ 2 (.float 0)).1 (by norm_num)
  rw [h]
  norm_num [show ((2 : ℤ)).toNat = 2 from rfl]

/-- C10: with a float, dual or string exponent of positive real part and a
base of non-positive real part, `pow` propagates the math-domain error
raised by `math.log`, an error kind distinct from `DualException`. -/
theorem C10_pow_log_domain_error (a : dual) (o : PyVal) (hx : a.x ≤ 0)
    (hc : 0 < (toDual o).x) (ho : ∀ m : ℤ, o ≠ .int m) :
    dual.pow a o = .error .mathDomainError
    ∧ PyError.mathDomainError ≠ PyError.dualException := by
  refine ⟨?_, by simp⟩
  have hl : mlog a.x = .error .mathDomainError := by
    rw [mlog, if_neg (not_lt.mpr hx)]
  rcases o with k | r | ⟨sx, sy⟩ | d
  · exact absurd rfl (ho k)
  all_goals
    simp only [dual.pow]
    rw [if_pos hc, hl]
    rfl

/-- Witness for C10 at base `(-1, 0)` and exponent `0.5`. -/
theorem C10_witness :
    dual.pow ⟨-1, 0⟩ (.float (1 / 2)) = .error .mathDomainError
    ∧ PyError.mathDomainError ≠ PyError.dualException :=
  C10_pow_log_domain_error ⟨-1, 0⟩ (.float (1 / 2)) (by norm_num)
    (by norm_num [toDual]) (fun m h => PyVal.noConfusion h)

/-- Witness for C8 at `a = (1,2)`, `b = (3,4)`. -/
theorem C8_witness :
    dual.eq (dual.mul (dual.truediv ⟨1, 2⟩ (.dualVal ⟨3, 4⟩)) (.dualVal ⟨3, 4⟩))
      (.dualVal ⟨1, 2⟩) :=
  (C8_sub_div_inverse_laws ⟨1, 2⟩ ⟨3, 4⟩).2 (by norm_num)

/-- Numeric bound for the second `pow` example: the exact indeterminate
part `4 + 6·ln 3` is within `1e-8` of the decimal `10.59167373200866`,
using the alternating series for `ln(2/3)` (21 terms) and the rational
approximation of `ln 2` from the library. -/
lemma pow_example_y_bound :
    |4 + 6 * Real.log 3 - 10.59167373200866| ≤ 1 / 10 ^ 8 := by
  have h2 := Real.log_two_near_10
  have h1 : |(3⁻¹ : ℝ)| < 1 := by rw [abs_of_pos] <;> norm_num
  have z := Real.abs_log_sub_add_sum_range_le h1 21
  rw [abs_of_pos (by norm_num : (0 : ℝ) < 3⁻¹)] at z
  rw [show (1 : ℝ) - 3⁻¹ = 2 / 3 from by norm_num] at z
  rw [Real.log_div (by norm_num) (by norm_num)] at z
  simp_rw [Finset.sum_range_succ] at z
  norm_num [Finset.sum_range_zero] at z
  rw [abs_le] at z h2 ⊢
  constructor <;> linarith [z.1, z.2, h2.1, h2.2]

/-- C1: `pow` dispatches on the exponent's type: a positive plain integer
uses the monomial rule; a float, dual or string exponent with positive
coerced real part `c` and indeterminate part `d` gives
`(e, e·(c·y/x + d·ln x))` with `e = exp(c·ln x)`; `c == 0` gives `(1,0)`;
`c < 0` raises the module's `DualException`; and the two literal examples
hold, the second within tolerance `1e-8`. -/
theorem C1_pow_dispatch (a : dual) (k : ℤ) (o : PyVal) :
    (0 < k → dual.pow a (.int k) =
      .ok ⟨a.x ^ k.toNat, (k : ℝ) * a.x ^ (k.toNat - 1) * a.y⟩)
    ∧ (0 < a.x → (∀ m : ℤ, o ≠ .int m) → 0 < (toDual o).x →
        dual.pow a o = .ok ⟨Real.exp ((toDual o).x * Real.log a.x),
          Real.exp ((toDual o).x * Real.log a.x) *
            ((toDual o).x * a.y / a.x + (toDual o).y * Real.log a.x)⟩)
    ∧ ((toDual o).x = 0 → dual.pow a o = .ok ⟨1, 0⟩)
    ∧ ((toDual o).x < 0 → dual.pow a o = .error .dualException)
    ∧ dual.pow ⟨1, 2⟩ (.dualVal ⟨3, 4⟩) = .ok ⟨1, 6⟩
    ∧ (∃ r : dual, dual.pow ⟨3, 4⟩ (.dualVal ⟨1, 2⟩) = .ok r
        ∧ dual.eq r (.dualVal ⟨3, 10.59167373200866⟩)) := by
  refine ⟨fun hk => ?_, fun hx ho hc => ?_, fun h0 => ?_, fun hneg => ?_, ?_, ?_⟩
  · have hkr : (0 : ℝ) < (k : ℝ) := by exact_mod_cast hk
    simp only [dual.pow, toDual]
    rw [if_pos hkr]
  · have hml : mlog a.x = .ok (Real.log a.x) := by rw [mlog, if_pos hx]
    rcases o with m | r | ⟨sx, sy⟩ | d
    · exact absurd rfl (ho m)
    all_goals
      simp only [toDual] at hc ⊢
      simp only [dual.pow, toDual]
      rw [if_pos hc, hml]
      rfl
  · simp only [dual.pow]
    rw [if_neg (by rw [h0]; exact lt_irrefl 0), if_pos h0]
  · simp only [dual.pow]
    rw [if_neg (not_lt.mpr hneg.le), if_neg (ne_of_lt hneg)]
  · have hml : mlog (1 : ℝ) = .ok (Real.log 1) := by
      rw [mlog, if_pos (by norm_num : (0 : ℝ) < 1)]
    simp only [dual.pow, toDual]
    rw [if_pos (by norm_num : (0 : ℝ) < 3), hml]
    simp only [Except.bind, Except.ok.injEq, dual.mk.injEq, Real.log_one]
    norm_num
  · have hml : mlog (3 : ℝ) = .ok (Real.log 3) := by
      rw [mlog, if_pos (by norm_num : (0 : ℝ) < 3)]
    refine ⟨⟨Real.exp (1 * Real.log 3),
      Real.exp (1 * Real.log 3) * (1 * 4 / 3 + 2 * Real.log 3)⟩, ?_, ?_⟩
    · simp only [dual.pow, toDual]
      rw [if_pos (by norm_num : (0 : ℝ) < 1), hml]
      rfl
    · have hval : Real.exp (1 * Real.log 3) * (1 * 4 / 3 + 2 * Real.log 3)
          = 4 + 6 * Real.log 3 := by
        rw [one_mul, Real.exp_log (by norm_num : (0 : ℝ) < 3)]
        ring
      simp only [dual.eq, toDual, precision]
      constructor
      · rw [one_mul, Real.exp_log (by norm_num : (0 : ℝ) < 3)]
        norm_num
      · rw [hval]
        exact pow_example_y_bound

/-- Witness for C1 at base `(5,1)` and integer exponent `2`. -/
theorem C1_witness : dual.pow ⟨5, 1⟩ (.int 2) = .ok ⟨25, 10⟩ := by
  have h := (C1_pow_dispatch ⟨5, 1⟩ 2 (.float 1)).1 (by norm_num)
  rw [h]
  norm_num [show ((2 : ℤ)).toNat = 2 from rfl]

/-- C4 counterexample: `a **= 2` on `a = (0,1)` coerces the exponent to a
`dual` first and so raises a math-domain error from `log(0)`, while the
pure `a.pow(2)` takes the plain-integer branch and returns `(0,0)`. -/
theorem C4_counterexample :
    dual.ipow ⟨0, 1⟩ (.int 2) = .error .mathDomainError
    ∧ dual.pow ⟨0, 1⟩ (.int 2) = .ok ⟨0, 0⟩
    ∧ dual.ipow ⟨0, 1⟩ (.int 2) ≠ dual.pow ⟨0, 1⟩ (.int 2) := by
  have h1 : dual.ipow ⟨0, 1⟩ (.int 2) = .error .mathDomainError := by
    norm_num [dual.ipow, dual.pow, toDual, mlog, Except.bind]
  have h2 : dual.pow ⟨0, 1⟩ (.int 2) = .ok ⟨0, 0⟩ := by
    norm_num [dual.pow, toDual, show ((2 : ℤ)).toNat = 2 from rfl]
  refine ⟨h1, h2, ?_⟩
  rw [h1, h2]
  simp

/-- C4 amended: the compound assignments for `+`, `-`, `*` and `/` land
exactly on the corresponding pure operation's result and return the mutated
left operand; `**=`, however, coerces its operand to a `dual` before
calling `pow`, so it computes `a.pow` of the coerced operand — this agrees
with `a.pow(b)` whenever `b` is a float, canonical string or `dual`, and
for a positive plain-integer `b` whenever the base's real part is positive,
but not for a plain-integer operand on a base with non-positive real
part. -/
theorem C4_inplace_amended (a : dual) (o : PyVal) (k : ℤ) :
    dual.iadd a o = dual.add a o
    ∧ dual.isub a o = dual.sub a o
    ∧ dual.imul a o = dual.mul a o
    ∧ dual.itruediv a o = dual.truediv a o
    ∧ dual.ipow a o = dual.pow a (.dualVal (toDual o))
    ∧ (∀ r : ℝ, dual.ipow a (.float r) = dual.pow a (.float r))
    ∧ (∀ sx sy : ℝ, dual.ipow a (.str sx sy) = dual.pow a (.str sx sy))
    ∧ (∀ d : dual, dual.ipow a (.dualVal d) = dual.pow a (.dualVal d))
    ∧ (0 < a.x → 0 < k → dual.ipow a (.int k) = dual.pow a (.int k)) := by
  refine ⟨rfl, rfl, ?_, rfl, rfl, fun r => rfl, fun sx sy => rfl, fun d => rfl,
    fun hx hk => ?_⟩
  · simp only [dual.imul, dual.mul, dual.mk.injEq]
    exact ⟨trivial, by ring⟩
  · exact pow_dual_coerce_int a k hx hk

/-- Witness for C4's amended claim at `a = (2,5)`, integer operand `1`. -/
theorem C4_inplace_witness : dual.ipow ⟨2, 5⟩ (.int 1) = dual.pow ⟨2, 5⟩ (.int 1) :=
  (C4_inplace_amended ⟨2, 5⟩ (.int 1) 1).2.2.2.2.2.2.2.2 (by norm_num) (by norm_num)

/-- Witness for C2: the `5e-9` shift instance at `(0,0)`. -/
theorem C2_witness :
    dual.eq ⟨0, 0⟩ (.dualVal ⟨0 + 5 / 10 ^ 9, 0 + 5 / 10 ^ 9⟩) :=
  (C2_eq_tolerance 0 0).2.1

/-- Witness for C7: the literal ordering instance. -/
theorem C7_witness : dual.lt ⟨1, 100⟩ (.dualVal ⟨2, -100⟩) :=
  (C7_ordering_real_component_only 1 100 2 (-100) 0 0).2.2.2.2.2.2.2.2

end DualPy
